import Mathlib

/-!
Shallow embedding of the log facade package (helper.go and the logger file):
severity levels, key-value field normalization, severity-range predicates,
write-syncer assembly, tee construction, verbosity views and configuration
translation, with theorems settling the specification claims.
-/

namespace LogSpec

/-! ## Severity levels

Zap levels are signed integers: Debug = -1, Info = 0, Warn = 1, Error = 2,
DPanic = 3, Panic = 4, Fatal = 5. We embed them as Int. -/

def debugLevel : Int := -1

def infoLevel : Int := 0

def warnLevel : Int := 1

def errorLevel : Int := 2

def dpanicLevel : Int := 3

def panicLevel : Int := 4

def fatalLevel : Int := 5

/-! ## Arguments and fields

An element of an untyped key-value argument list is either a string, some
other non-string non-field value (modelled by an Int payload), or a
pre-typed structured Zap field (which itself holds a key and a value). -/

inductive Arg where
  | str (s : String)
  | int (n : Int)
  | field (key : String) (value : Arg)
deriving DecidableEq, Repr

/-- A Zap field as produced by zap.Any: a key paired with an arbitrary value. -/
abbrev ZField := String × Arg

/-- zap.Any wraps a key and a value into a field. -/
def zapAny (k : String) (v : Arg) : ZField := (k, v)

/-- Whether an argument is a pre-typed Zap field (the args[i].(zap.Field) type test). -/
def isZapField : Arg → Bool
  | .field _ _ => true
  | _ => false

/-! ## handleFields (key-value normalization)

Embeds handleFields from the logger source. The DPanic diagnostic self-logs
are collected into a message list (second component); in non-development
mode DPanic only records the diagnostic and returns. -/

def dpanicTypedMsg : String := "strongly-typed Zap Field passed to logr"

def dpanicOddMsg : String := "odd number of arguments passed as key-value pairs for logging"

def dpanicKeyMsg : String := "non-string key argument passed to logging, ignoring all later arguments"

/-- The loop body of handleFields: walk the args two at a time, checking
first for a pre-typed field in key position, then for a trailing unmatched
key, then that the key is a string; on any violation DPanic once and stop. -/
def sweetenFields : List Arg → List ZField × List String
  | [] => ([], [])
  | [a] =>
    if isZapField a then ([], [dpanicTypedMsg]) else ([], [dpanicOddMsg])
  | a :: b :: rest =>
    if isZapField a then ([], [dpanicTypedMsg])
    else
      match a with
      | .str k =>
        let r := sweetenFields rest
        (zapAny k b :: r.1, r.2)
      | _ => ([], [dpanicKeyMsg])

/-- handleFields: fast-return the additional fields on empty args, otherwise
normalize the args and append the additional fields. Returns the resulting
fields together with the emitted DPanic diagnostics. -/
def handleFields (args : List Arg) (additional : List ZField) :
    List ZField × List String :=
  if args.isEmpty then (additional, [])
  else
    let r := sweetenFields args
    (r.1 ++ additional, r.2)

/-! Spec-side notions for the claims about handleFields. -/

/-- An argument list is well-formed when it has even length and every key
position holds a string (a string is never a pre-typed field). -/
def wellFormedArgs : List Arg → Bool
  | [] => true
  | .str _ :: _ :: rest => wellFormedArgs rest
  | _ => false

/-- The fields built from the longest well-formed prefix of key-value pairs. -/
def goodPrefixFields : List Arg → List ZField
  | .str k :: v :: rest => zapAny k v :: goodPrefixFields rest
  | _ => []

lemma sweetenFields_fst (args : List Arg) :
    (sweetenFields args).1 = goodPrefixFields args := by
  induction args using sweetenFields.induct <;>
    try simp_all [sweetenFields, goodPrefixFields, isZapField]
  all_goals
    rename_i a b rest h
  all_goals
    cases a <;> simp_all [goodPrefixFields, isZapField]

lemma sweetenFields_snd_length (args : List Arg) :
    (sweetenFields args).2.length = (if wellFormedArgs args then 0 else 1) := by
  induction args using sweetenFields.induct <;>
    try simp_all [sweetenFields, wellFormedArgs, isZapField]
  all_goals
    rename_i a b rest h
  all_goals
    cases a <;> simp_all [wellFormedArgs, isZapField]

/-! ## Severity-range predicate and level helpers -/

/-- levelFunc: the sink-enabling predicate for an inclusive level range. -/
def levelFunc (minLevel maxLevel : Int) : Int → Bool := fun level =>
  if minLevel > maxLevel then false
  else if maxLevel > fatalLevel then false
  else if level < minLevel ∨ level > maxLevel then false
  else true

/-- maxLevel from helper.go: the larger of two levels. -/
def maxLevel (x y : Int) : Int := if x < y then y else x

/-! ## Options and configuration translation -/

/-- Modelled from the spec: the Options configuration struct, whose defining
source file is not under src (only its uses in helper.go are). Fields follow
the spec data model: level string, format, output path lists, rotation limits
including backup count and compression flag, and the boolean toggles. -/
structure Options where
  Level : String
  Format : String
  OutputPaths : List String
  ErrorOutputPaths : List String
  MaxSizeInMB : Int
  MaxAgeInDays : Int
  MaxBackups : Int
  Compress : Bool
  EnableCaller : Bool
  DisableStacktrace : Bool
  EnableColor : Bool
  Development : Bool
deriving DecidableEq, Repr

/-- Modelled from the spec: NewOptions defaults — level info, console format,
output stdout, error output stderr, rotation 100MB and 7 days with 0 backups
and no compression, caller enabled, stacktrace enabled, color disabled. -/
def NewOptions : Options :=
  ⟨"info", "console", ["stdout"], ["stderr"], 100, 7, 0, false, true, false,
   false, false⟩

/-- Model of the external zap level parser (zapcore.Level.UnmarshalText):
recognized spellings map to their level, anything else fails. The empty
string is accepted as info by the library. -/
def parseZapLevel (s : String) : Option Int :=
  if s = "debug" ∨ s = "DEBUG" then some debugLevel
  else if s = "info" ∨ s = "INFO" ∨ s = "" then some infoLevel
  else if s = "warn" ∨ s = "WARN" then some warnLevel
  else if s = "error" ∨ s = "ERROR" then some errorLevel
  else if s = "dpanic" ∨ s = "DPANIC" then some dpanicLevel
  else if s = "panic" ∨ s = "PANIC" then some panicLevel
  else if s = "fatal" ∨ s = "FATAL" then some fatalLevel
  else none

/-- The effective minimum level computed by zapConfigFromOpts: parse the
Options level string and fall back to info when parsing fails. -/
def zapConfigLevel (opts : Options) : Int :=
  match parseZapLevel opts.Level with
  | some l => l
  | _ => infoLevel

/-! ## The two tee options assembled by Init -/

/-- The routing data of the tee built by Init: output path list and level
predicate for each of the two sinks. -/
structure InitTees where
  outPaths : List String
  outEnabler : Int → Bool
  errPaths : List String
  errEnabler : Int → Bool

/-- Init assembles two tee options: the first from normalLogOpts, built over
opts.OutputPaths and enabled by levelFunc baseLevel warn; the second over
opts.ErrorOutputPaths, enabled by levelFunc (maxLevel baseLevel warn) fatal. -/
def initTees (opts : Options) : InitTees :=
  let baseLevel := zapConfigLevel opts
  { outPaths := opts.OutputPaths
    outEnabler := levelFunc baseLevel warnLevel
    errPaths := opts.ErrorOutputPaths
    errEnabler := levelFunc (maxLevel baseLevel warnLevel) fatalLevel }

/-! ## Claim theorems: handleFields, levelFunc, Init routing, level parsing -/

/-- C1: for every malformed argument list (odd length, non-string key, or
pre-typed field in key position), handleFields returns exactly the fields of
the longest well-formed prefix followed by the additional fields, and emits
exactly one DPanic diagnostic; it returns no error to the caller. -/
theorem handleFields_malformed (args : List Arg) (additional : List ZField)
    (h : wellFormedArgs args = false) :
    (handleFields args additional).1 = goodPrefixFields args ++ additional ∧
    (handleFields args additional).2.length = 1 := by
  have hne : args ≠ [] := by
    intro he
    subst he
    simp [wellFormedArgs] at h
  constructor
  · simp [handleFields, List.isEmpty_iff, hne, sweetenFields_fst]
  · simp [handleFields, List.isEmpty_iff, hne, sweetenFields_snd_length, h]

/-- Witness for C1 at a concrete malformed list (non-string key in third
position after one good pair). -/
theorem handleFields_malformed_witness :
    wellFormedArgs [Arg.str "k", Arg.int 1, Arg.int 7] = false ∧
    ((handleFields [Arg.str "k", Arg.int 1, Arg.int 7] [zapAny "e" (Arg.int 9)]).1 =
        goodPrefixFields [Arg.str "k", Arg.int 1, Arg.int 7] ++ [zapAny "e" (Arg.int 9)] ∧
      (handleFields [Arg.str "k", Arg.int 1, Arg.int 7] [zapAny "e" (Arg.int 9)]).2.length = 1) :=
  ⟨by decide,
   handleFields_malformed [Arg.str "k", Arg.int 1, Arg.int 7]
     [zapAny "e" (Arg.int 9)] (by decide)⟩

/-- C6: handleFields with empty arguments returns exactly the additional
fields unchanged, and on a well-formed list returns the normalized pairs in
input order followed by the additional fields, with no diagnostics. -/
theorem handleFields_wellFormed (args : List Arg) (additional : List ZField) :
    handleFields [] additional = (additional, []) ∧
    (wellFormedArgs args = true →
      handleFields args additional = (goodPrefixFields args ++ additional, [])) := by
  constructor
  · simp [handleFields]
  · intro h
    rcases args with _ | ⟨a, rest⟩
    · simp [handleFields, goodPrefixFields]
    · have h2 := sweetenFields_snd_length (a :: rest)
      rw [h] at h2
      simp only [if_true] at h2
      have hnil : (sweetenFields (a :: rest)).2 = [] :=
        List.eq_nil_of_length_eq_zero h2
      simp [handleFields, sweetenFields_fst, hnil]

/-- Witness for C6 at a concrete well-formed list. -/
theorem handleFields_wellFormed_witness :
    handleFields [] [zapAny "e" (Arg.int 9)] = ([zapAny "e" (Arg.int 9)], []) ∧
    handleFields [Arg.str "a", Arg.int 1] [zapAny "e" (Arg.int 9)] =
      (goodPrefixFields [Arg.str "a", Arg.int 1] ++ [zapAny "e" (Arg.int 9)], []) :=
  ⟨(handleFields_wellFormed [Arg.str "a", Arg.int 1] [zapAny "e" (Arg.int 9)]).1,
   (handleFields_wellFormed [Arg.str "a", Arg.int 1] [zapAny "e" (Arg.int 9)]).2
     (by decide)⟩

/-- C2: the predicate of levelFunc accepts L exactly when min ≤ max, max
does not exceed fatal, and min ≤ L ≤ max; violating either of the first two
conditions rejects every level. -/
theorem levelFunc_spec (minL maxL L : Int) :
    (levelFunc minL maxL L = true ↔
      minL ≤ maxL ∧ maxL ≤ fatalLevel ∧ minL ≤ L ∧ L ≤ maxL) ∧
    (¬ minL ≤ maxL ∨ ¬ maxL ≤ fatalLevel → levelFunc minL maxL L = false) := by
  unfold levelFunc fatalLevel
  constructor
  · split_ifs with h1 h2 h3 <;> simp <;> omega
  · intro h
    split_ifs with h1 h2 h3 <;> first | rfl | (exfalso; omega)

/-- Witness for C2 at concrete levels, including an inverted range. -/
theorem levelFunc_spec_witness :
    (levelFunc 0 1 0 = true ↔
      (0 : Int) ≤ 1 ∧ (1 : Int) ≤ fatalLevel ∧ (0 : Int) ≤ 0 ∧ (0 : Int) ≤ 1) ∧
    levelFunc 2 1 0 = false :=
  ⟨(levelFunc_spec 0 1 0).1, (levelFunc_spec 2 1 0).2 (by decide)⟩

/-- C3: the tee built by Init enables the outputPaths sink exactly for
B ≤ L ≤ warn (B the configured minimum level) and the errorOutputPaths sink
exactly for max(B, warn) ≤ L ≤ fatal; error-and-above records never reach
the outputPaths sink. -/
theorem init_tee_routing (opts : Options) (L : Int) :
    ((initTees opts).outEnabler L = true ↔
      zapConfigLevel opts ≤ L ∧ L ≤ warnLevel) ∧
    ((initTees opts).errEnabler L = true ↔
      maxLevel (zapConfigLevel opts) warnLevel ≤ L ∧ L ≤ fatalLevel) ∧
    (errorLevel ≤ L → (initTees opts).outEnabler L = false) := by
  simp only [initTees, levelFunc, maxLevel, warnLevel, fatalLevel, errorLevel]
  refine ⟨?_, ?_, ?_⟩
  · split_ifs <;> simp <;> omega
  · split_ifs <;> simp <;> omega
  · intro h
    split_ifs <;> first | rfl | (exfalso; omega)

/-- Witness for C3 at the default options and the error level. -/
theorem init_tee_routing_witness :
    (initTees NewOptions).outEnabler errorLevel = false ∧
    ((initTees NewOptions).errEnabler errorLevel = true ↔
      maxLevel (zapConfigLevel NewOptions) warnLevel ≤ errorLevel ∧
        errorLevel ≤ fatalLevel) :=
  ⟨(init_tee_routing NewOptions errorLevel).2.2 (by decide),
   (init_tee_routing NewOptions errorLevel).2.1⟩

/-- C7: configuration translation maps an unparsable level string to the
info level instead of an error, and uses a parsable level as given. -/
theorem zapConfigLevel_spec (opts : Options) :
    (parseZapLevel opts.Level = none → zapConfigLevel opts = infoLevel) ∧
    (∀ l, parseZapLevel opts.Level = some l → zapConfigLevel opts = l) := by
  constructor
  · intro h
    simp [zapConfigLevel, h]
  · intro l h
    simp [zapConfigLevel, h]

/-- Witness for C7 at an unparsable and a parsable level string. -/
theorem zapConfigLevel_spec_witness :
    zapConfigLevel { NewOptions with Level := "bogus" } = infoLevel ∧
    zapConfigLevel { NewOptions with Level := "error" } = errorLevel :=
  ⟨(zapConfigLevel_spec { NewOptions with Level := "bogus" }).1 (by decide),
   (zapConfigLevel_spec { NewOptions with Level := "error" }).2 errorLevel
     (by decide)⟩

/-! ## Rotation options and the write-syncer builder -/

structure rotationOptions where
  maxSize : Int
  maxAge : Int
  maxBackups : Int
  compress : Bool
deriving DecidableEq, Repr

/-- The package rotation defaults: 100MB, 7 days, 0 backups, no compression. -/
def _defaultRotateOpts : rotationOptions := ⟨100, 7, 0, false⟩

/-- buildRotationOpts: defaults for a nil Options, otherwise size and age
from the Options with backup count and compression from the defaults. -/
def buildRotationOpts (options : Option Options) : rotationOptions :=
  match options with
  | none => _defaultRotateOpts
  | some o =>
    { maxSize := o.MaxSizeInMB
      maxAge := o.MaxAgeInDays
      maxBackups := _defaultRotateOpts.maxBackups
      compress := _defaultRotateOpts.compress }

/-- A write syncer: a console stream, a rotating file sink bound to a path
and rotation limits, or the fan-out combination of several syncers. -/
inductive SyncerM where
  | console (name : String)
  | file (path : String) (opts : rotationOptions)
  | combined (ws : List SyncerM)
deriving Repr

def _stdoutPath : String := "stdout"

def _stderrPath : String := "stderr"

/-- Membership test in the _stdouts set of reserved console path names. -/
def isStdPath (p : String) : Bool := p == _stdoutPath || p == _stderrPath

/-- The per-path loop of buildWriteSyncer, parametrized by an environment
giving the failure (if any) of opening each console stream. Returns the
opened syncers in path order, the registered closers (console paths opened
so far) and the collected errors. File sinks register no closer and cannot
fail at construction. -/
def bwsLoop (env : String → Option String) (options : rotationOptions) :
    List String → List SyncerM × List String × List String
  | [] => ([], [], [])
  | p :: rest =>
    let r := bwsLoop env options rest
    if isStdPath p then
      match env p with
      | some e => (r.1, r.2.1, e :: r.2.2)
      | none => (.console p :: r.1, p :: r.2.1, r.2.2)
    else
      (.file p options :: r.1, r.2.1, r.2.2)

/-- Outcome of buildWriteSyncer: the syncer (none on failure), the aggregate
error contents ([] meaning a nil error), and the resources closed before
returning. -/
structure BuildResult where
  syncer : Option SyncerM
  err : List String
  closed : List String

/-- buildWriteSyncer: run the per-path loop; if any error was collected,
close every opened resource and fail with the aggregate error, otherwise
combine all per-path syncers into one fan-out syncer. -/
def buildWriteSyncer (env : String → Option String) (paths : List String)
    (options : rotationOptions) : BuildResult :=
  let r := bwsLoop env options paths
  if r.2.2.isEmpty then
    { syncer := some (.combined r.1), err := [], closed := [] }
  else
    { syncer := none, err := r.2.2, closed := r.2.1 }

/-! Spec-side notions for the write-syncer builder claims. -/

/-- The sink a path should map to: console stream for the reserved names,
rotating file sink bound to the path and limits otherwise. -/
def pathSink (options : rotationOptions) (p : String) : SyncerM :=
  if isStdPath p then .console p else .file p options

/-- The open failures a path list incurs under an environment. -/
def pathOpenErrs (env : String → Option String) (paths : List String) :
    List String :=
  paths.filterMap fun p => if isStdPath p then env p else none

/-- The console streams successfully opened (the closable resources). -/
def openedConsoles (env : String → Option String) (paths : List String) :
    List String :=
  paths.filter fun p => isStdPath p && (env p).isNone

/-- The paths whose sink actually got constructed (all non-console paths,
plus console paths that opened successfully). -/
def openedSinkPaths (env : String → Option String) (paths : List String) :
    List String :=
  paths.filter fun p => !(isStdPath p) || (env p).isNone

lemma bwsLoop_errs (env : String → Option String) (options : rotationOptions)
    (paths : List String) :
    (bwsLoop env options paths).2.2 = pathOpenErrs env paths := by
  induction paths with
  | nil => rfl
  | cons p rest ih =>
    simp only [pathOpenErrs] at ih ⊢
    by_cases hs : isStdPath p
    · cases henv : env p <;> simp [bwsLoop, hs, henv, ih]
    · simp [bwsLoop, hs, ih]

lemma bwsLoop_closers (env : String → Option String)
    (options : rotationOptions) (paths : List String) :
    (bwsLoop env options paths).2.1 = openedConsoles env paths := by
  induction paths with
  | nil => rfl
  | cons p rest ih =>
    simp only [openedConsoles] at ih ⊢
    by_cases hs : isStdPath p
    · cases henv : env p <;> simp [bwsLoop, hs, henv, ih]
    · simp [bwsLoop, hs, ih]

lemma bwsLoop_res (env : String → Option String) (options : rotationOptions)
    (paths : List String) :
    (bwsLoop env options paths).1 =
      (openedSinkPaths env paths).map (pathSink options) := by
  induction paths with
  | nil => rfl
  | cons p rest ih =>
    simp only [openedSinkPaths] at ih ⊢
    by_cases hs : isStdPath p
    · cases henv : env p <;> simp [bwsLoop, pathSink, hs, henv, ih]
    · simp [bwsLoop, pathSink, hs, ih]

lemma openedSinkPaths_of_no_errs (env : String → Option String)
    (paths : List String) (h : pathOpenErrs env paths = []) :
    openedSinkPaths env paths = paths := by
  induction paths with
  | nil => rfl
  | cons p rest ih =>
    simp only [pathOpenErrs] at h ih
    simp only [openedSinkPaths] at ih ⊢
    by_cases hs : isStdPath p
    · cases henv : env p with
      | some e =>
        exfalso
        simp [hs, henv] at h
      | none =>
        simp only [List.filterMap_cons, hs, if_true, henv] at h
        simp [hs, henv, ih h]
    · simp only [List.filterMap_cons, hs] at h
      simp only [if_false, Bool.false_eq_true] at h
      simp [hs, ih (by simpa using h)]

/-- C4: buildWriteSyncer maps console names to console streams and the rest
to rotating file sinks with the given limits; with no open failure it
returns the fan-out combination of all per-path sinks in path order and a
nil error with nothing closed; with failures it returns no syncer, the
collected failures as one aggregate error, and closes every console stream
opened in the call. -/
theorem buildWriteSyncer_spec (env : String → Option String)
    (paths : List String) (options : rotationOptions) :
    (buildWriteSyncer env paths options).err = pathOpenErrs env paths ∧
    buildWriteSyncer env paths options =
      if pathOpenErrs env paths = [] then
        ⟨some (.combined (paths.map (pathSink options))), [], []⟩
      else
        ⟨none, pathOpenErrs env paths, openedConsoles env paths⟩ := by
  have herr := bwsLoop_errs env options paths
  have hcl := bwsLoop_closers env options paths
  have hres := bwsLoop_res env options paths
  by_cases h : pathOpenErrs env paths = []
  · have hre : openedSinkPaths env paths = paths :=
      openedSinkPaths_of_no_errs env paths h
    rw [hre] at hres
    constructor
    · simp [buildWriteSyncer, herr, h, List.isEmpty_iff]
    · simp [buildWriteSyncer, herr, h, List.isEmpty_iff, hres]
  · constructor
    · simp [buildWriteSyncer, herr, h, List.isEmpty_iff]
    · simp [buildWriteSyncer, herr, hcl, h, List.isEmpty_iff]

/-! ## Verbosity-gated views -/

/-- The backend core seen through its level-enablement behavior. -/
structure ZapCoreM where
  enabled : Int → Bool

/-- The live info view: a level and the backend it logs through. -/
structure infoLoggerV where
  level : Int
  log : ZapCoreM

/-- An InfoLogger view: the shared disabled no-op view, or a live view. -/
inductive InfoViewM where
  | noop
  | live (il : infoLoggerV)

/-- logger.V: check the backend core once at call time; return a live view
bound to the requested level when enabled, the disabled view otherwise. -/
def loggerV (core : ZapCoreM) (lvl : Int) : InfoViewM :=
  if core.enabled lvl then .live ⟨lvl, core⟩ else .noop

/-- Enabled(): false on the no-op view, true on every live view. -/
def viewEnabled : InfoViewM → Bool
  | .noop => false
  | .live _ => true

/-- Model of the backend Check call: a checked entry exists exactly when the
core is enabled at the level. -/
def zapCheck (core : ZapCoreM) (lvl : Int) : Bool := core.enabled lvl

/-- An emitted record: level, message and fields. -/
abbrev Record := Int × String × List ZField

/-- Info on a view: the no-op view emits nothing; a live view writes the
checked entry with the given fields when the check passes. -/
def viewInfo : InfoViewM → String → List ZField → List Record
  | .noop, _, _ => []
  | .live il, msg, fs =>
    if zapCheck il.log il.level then [(il.level, msg, fs)] else []

/-- Infof on a view, taking the already-formatted message. -/
def viewInfof : InfoViewM → String → List Record
  | .noop, _ => []
  | .live il, msg =>
    if zapCheck il.log il.level then [(il.level, msg, [])] else []

/-- Infow on a view: normalizes the key-value arguments via handleFields. -/
def viewInfow : InfoViewM → String → List Arg → List Record
  | .noop, _, _ => []
  | .live il, msg, kvs =>
    if zapCheck il.log il.level then
      [(il.level, msg, (handleFields kvs []).1)]
    else []

/-- C5: V checks enablement once at call time: when the core is enabled at
the level it returns the live view bound to that level and backend, whose
Enabled() is true; otherwise it returns the disabled view, whose Enabled()
is false and whose Info, Infof and Infow emit no records. -/
theorem loggerV_spec (core : ZapCoreM) (v : Int) :
    (core.enabled v = true →
      loggerV core v = .live ⟨v, core⟩ ∧ viewEnabled (loggerV core v) = true) ∧
    (core.enabled v = false →
      loggerV core v = .noop ∧ viewEnabled (loggerV core v) = false ∧
      ∀ msg fs kvs,
        viewInfo (loggerV core v) msg fs = [] ∧
        viewInfof (loggerV core v) msg = [] ∧
        viewInfow (loggerV core v) msg kvs = []) := by
  constructor
  · intro h
    simp [loggerV, h, viewEnabled]
  · intro h
    simp [loggerV, h, viewEnabled, viewInfo, viewInfof, viewInfow]

/-- Witness for C5: a core enabled from level 0 upward, viewed at level -5. -/
theorem loggerV_spec_witness :
    loggerV ⟨fun l => decide (0 ≤ l)⟩ (-5) = .noop ∧
    viewEnabled (loggerV ⟨fun l => decide (0 ≤ l)⟩ (-5)) = false ∧
    viewInfo (loggerV ⟨fun l => decide (0 ≤ l)⟩ (-5)) "m" [] = [] ∧
    viewInfof (loggerV ⟨fun l => decide (0 ≤ l)⟩ (-5)) "m" = [] ∧
    viewInfow (loggerV ⟨fun l => decide (0 ≤ l)⟩ (-5)) "m" [Arg.str "k"] = [] :=
  ⟨((loggerV_spec ⟨fun l => decide (0 ≤ l)⟩ (-5)).2 (by decide)).1,
   ((loggerV_spec ⟨fun l => decide (0 ≤ l)⟩ (-5)).2 (by decide)).2.1,
   (((loggerV_spec ⟨fun l => decide (0 ≤ l)⟩ (-5)).2 (by decide)).2.2 "m" [] [Arg.str "k"]).1,
   (((loggerV_spec ⟨fun l => decide (0 ≤ l)⟩ (-5)).2 (by decide)).2.2 "m" [] [Arg.str "k"]).2.1,
   (((loggerV_spec ⟨fun l => decide (0 ≤ l)⟩ (-5)).2 (by decide)).2.2 "m" [] [Arg.str "k"]).2.2⟩

/-! ## Tee assembly (newTee) -/

/-- A backend core triple as built by zapcore.NewCore. -/
structure CoreM where
  encoder : String
  w : SyncerM
  enabler : Int → Bool

/-- One tee option: an optional writer (nil modelled as none) and a level
enabler. -/
structure teeOptionM where
  w : Option SyncerM
  enabler : Int → Bool

/-- The assembled backend: the tee of the built cores. -/
structure zapLoggerM where
  core : List CoreM

/-- The cached info view held inside the wrapped logger. -/
structure infoLoggerT where
  level : Int
  log : zapLoggerM

/-- The wrapped logger returned by newTee. -/
structure loggerM where
  zapLogger : zapLoggerM
  il : infoLoggerT

/-- The core-construction loop of newTee: for each tee option in order,
panic (modelled as Except.error) when its writer is nil, otherwise build a
core from the shared encoder, the writer and the enabler. -/
def buildCores (encoder : String) : List teeOptionM → Except String (List CoreM)
  | [] => .ok []
  | t :: rest =>
    match t.w with
    | none => .error "the writer is nil"
    | some w =>
      match buildCores encoder rest with
      | .error e => .error e
      | .ok cs => .ok (⟨encoder, w, t.enabler⟩ :: cs)

/-- newTee: build all cores (panicking on a nil writer), tee them into one
backend, and wrap it with a cached info view at the info level. -/
def newTee (topts : List teeOptionM) (encoder : String) :
    Except String loggerM :=
  match buildCores encoder topts with
  | .error e => .error e
  | .ok cores => .ok ⟨⟨cores⟩, ⟨infoLevel, ⟨cores⟩⟩⟩

lemma buildCores_error_of_none (encoder : String) (topts : List teeOptionM)
    (h : ∃ t ∈ topts, t.w = none) :
    buildCores encoder topts = .error "the writer is nil" := by
  induction topts with
  | nil => simp at h
  | cons t rest ih =>
    cases hw : t.w with
    | none => simp [buildCores, hw]
    | some w =>
      rcases h with ⟨u, hu, hun⟩
      rcases List.mem_cons.mp hu with h1 | h1
      · subst h1
        exact absurd hw (by rw [hun]; simp)
      · rw [buildCores, hw, ih ⟨u, h1, hun⟩]

lemma buildCores_ok_of_allsome (encoder : String) (topts : List teeOptionM)
    (h : ∀ t ∈ topts, t.w ≠ none) :
    ∃ cs, buildCores encoder topts = .ok cs := by
  induction topts with
  | nil => exact ⟨[], rfl⟩
  | cons t rest ih =>
    cases hw : t.w with
    | none => exact absurd hw (h t (List.mem_cons_self t rest))
    | some w =>
      obtain ⟨cs, hcs⟩ := ih fun u hu => h u (List.mem_cons_of_mem t hu)
      exact ⟨⟨encoder, w, t.enabler⟩ :: cs, by rw [buildCores, hw, hcs]⟩

/-- C8: newTee fails with the nil-writer panic exactly when some tee option
has a nil writer; every logger it returns has its cached info view bound to
the info level and to the same assembled backend. -/
theorem newTee_spec (topts : List teeOptionM) (encoder : String) :
    ((∃ t ∈ topts, t.w = none) ↔
      newTee topts encoder = .error "the writer is nil") ∧
    (∀ L, newTee topts encoder = .ok L →
      L.il.level = infoLevel ∧ L.il.log = L.zapLogger) := by
  constructor
  · constructor
    · intro h
      rw [newTee, buildCores_error_of_none encoder topts h]
    · intro h
      by_contra hn
      push_neg at hn
      obtain ⟨cs, hcs⟩ := buildCores_ok_of_allsome encoder topts hn
      rw [newTee, hcs] at h
      exact Except.noConfusion h
  · intro L hL
    unfold newTee at hL
    revert hL
    cases buildCores encoder topts with
    | error e =>
      intro hL
      exact Except.noConfusion hL
    | ok cs =>
      intro hL
      have h2 : (⟨⟨cs⟩, ⟨infoLevel, ⟨cs⟩⟩⟩ : loggerM) = L := Except.ok.inj hL
      rw [← h2]
      exact ⟨rfl, rfl⟩

/-- Witness for C8: a nil writer panics; a singleton well-formed tee yields
the expected logger. -/
theorem newTee_spec_witness :
    newTee [⟨none, fun _ => true⟩] "enc" = .error "the writer is nil" ∧
    ((⟨⟨[⟨"enc", .console "stdout", fun _ => true⟩]⟩,
        ⟨infoLevel, ⟨[⟨"enc", .console "stdout", fun _ => true⟩]⟩⟩⟩ :
          loggerM).il.level = infoLevel ∧
      (⟨⟨[⟨"enc", .console "stdout", fun _ => true⟩]⟩,
        ⟨infoLevel, ⟨[⟨"enc", .console "stdout", fun _ => true⟩]⟩⟩⟩ :
          loggerM).il.log =
        (⟨⟨[⟨"enc", .console "stdout", fun _ => true⟩]⟩,
          ⟨infoLevel, ⟨[⟨"enc", .console "stdout", fun _ => true⟩]⟩⟩⟩ :
            loggerM).zapLogger) :=
  ⟨(newTee_spec [⟨none, fun _ => true⟩] "enc").1.mp
    ⟨⟨none, fun _ => true⟩, List.mem_singleton.mpr rfl, rfl⟩,
   (newTee_spec [⟨some (.console "stdout"), fun _ => true⟩] "enc").2
     ⟨⟨[⟨"enc", .console "stdout", fun _ => true⟩]⟩,
      ⟨infoLevel, ⟨[⟨"enc", .console "stdout", fun _ => true⟩]⟩⟩⟩ rfl⟩

/-! ## Logger.Write -/

/-- logger.Write: log the byte slice as one info-level message through the
backend (emitted when the backend enables info) and return (len p, nil)
unconditionally. -/
def loggerWrite (core : ZapCoreM) (p : List Nat) :
    List (Int × List Nat) × Nat × Option String :=
  ((if core.enabled infoLevel then [(infoLevel, p)] else []), p.length, none)

/-- C9: Write always returns the full length and a nil error, for every
backend; whatever it emits is a single info-level record carrying exactly
the bytes, emitted when the backend enables the info level. -/
theorem loggerWrite_spec (core : ZapCoreM) (p : List Nat) :
    (loggerWrite core p).2 = (p.length, none) ∧
    (core.enabled infoLevel = true →
      (loggerWrite core p).1 = [(infoLevel, p)]) ∧
    (∀ r ∈ (loggerWrite core p).1, r = (infoLevel, p)) := by
  refine ⟨rfl, ?_, ?_⟩
  · intro h
    simp [loggerWrite, h]
  · intro r hr
    unfold loggerWrite at hr
    split at hr <;> simp_all

/-- Witness for C9 at an always-enabled backend and a concrete byte list. -/
theorem loggerWrite_spec_witness :
    (loggerWrite ⟨fun _ => true⟩ [104, 105]).2 = ([104, 105].length, none) ∧
    (loggerWrite ⟨fun _ => true⟩ [104, 105]).1 = [(infoLevel, [104, 105])] :=
  ⟨(loggerWrite_spec ⟨fun _ => true⟩ [104, 105]).1,
   (loggerWrite_spec ⟨fun _ => true⟩ [104, 105]).2.1 rfl⟩

/-- C10: buildRotationOpts takes size and age from the Options but always 0
backups and no compression (the caller-supplied backup count and compression
flag are never honored); a nil Options yields the full defaults. -/
theorem buildRotationOpts_spec (o : Options) :
    buildRotationOpts (some o) =
      ⟨o.MaxSizeInMB, o.MaxAgeInDays, 0, false⟩ ∧
    buildRotationOpts none = ⟨100, 7, 0, false⟩ := by
  constructor <;> rfl

end LogSpec
